import Mathlib

/-!
# Verification of the record-tree engine (`src/src/r/R/RecordFactory.ts`)

This file is a shallow embedding, in Lean 4, of the record-tree engine of the
repository.  A `RecordNode` mirrors the persisted JSON shape
`{ name?, type, order?, props, records? }`; every operation of the
`RecordFactory` class that the claims mention is translated into a pure Lean
function.  JavaScript in-place mutation is modelled by explicit state passing:
each mutating operation takes the tree (and, where ids are generated, a
generator counter) and returns the updated tree.  JavaScript objects whose keys
are numeric strings iterate in ascending numeric key order; record maps are
modelled as association lists and `Object.assign` / `map[id] = v` as
order-preserving insertion (`mapSet`).  Numbers are modelled by `ℚ` (orders can
become fractional through the allocator's interior-gap division).

The type registry (`RecordTypes.ts`) and the small utilities `deepClone`,
`generateIdV2` and `getSafeAndUniqueRecordName` are imported by the source from
outside `src/`; they are modelled from the spec where indicated.
-/

namespace RFModel

/-- A JavaScript property value.  Only scalar shapes are needed by the claims:
the engine compares property values with `===` against a numeric id, and any
non-number compares unequal, which the constructors below already exercise.
(Structured values — arrays, objects — are omitted; no claim depends on them.) -/
inductive Value : Type where
  | num : ℚ → Value
  | str : String → Value
  | boolean : Bool → Value
  | null : Value
  deriving DecidableEq

/-- A record node, mirroring the persisted tree shape
`{ name?, type, order?, props: {..}, records?: { [childType]: { [id]: node } } }`.
A node does not store its own id; ids live one level up, as keys of the
parent's record map. -/
inductive RecordNode : Type where
  | mk (name : Option String) (rtype : String) (order : Option ℚ)
       (props : List (String × Value))
       (records : Option (List (String × List (Nat × RecordNode)))) : RecordNode

/-- One record map: ids of one child type to child nodes (one level). -/
abbrev RecordMap := List (Nat × RecordNode)

/-- The `records` object: child type to record map, in key-insertion order. -/
abbrev RecsList := List (String × RecordMap)

def RecordNode.name : RecordNode → Option String
  | .mk nm _ _ _ _ => nm

def RecordNode.rtype : RecordNode → String
  | .mk _ t _ _ _ => t

def RecordNode.order : RecordNode → Option ℚ
  | .mk _ _ o _ _ => o

def RecordNode.props : RecordNode → List (String × Value)
  | .mk _ _ _ p _ => p

def RecordNode.records : RecordNode → Option RecsList
  | .mk _ _ _ _ r => r

/-- `records ?? {}` — the `records` object with `undefined` read as empty. -/
def RecordNode.recordsD (n : RecordNode) : RecsList := n.records.getD []

def RecordNode.setOrder : RecordNode → Option ℚ → RecordNode
  | .mk nm t _ p r, o => .mk nm t o p r

def RecordNode.setName : RecordNode → Option String → RecordNode
  | .mk _ t o p r, nm => .mk nm t o p r

def RecordNode.setProps : RecordNode → List (String × Value) → RecordNode
  | .mk nm t o _ r, p => .mk nm t o p r

def RecordNode.setRecords : RecordNode → Option RecsList → RecordNode
  | .mk nm t o p _, r => .mk nm t o p r

/-! ## Association-list helpers (JavaScript object semantics)

Record maps are JavaScript objects keyed by numeric strings: lookup is by key,
and iteration (`Object.keys/values/entries`) presents numeric keys in ascending
order.  `mapSet` models `map[id] = v`: replace the value if the key exists,
otherwise insert at the ascending-order position (so that a map kept sorted
stays sorted, exactly as a JS object presents it). -/

def lookupKey {β : Type} (l : List (Nat × β)) (k : Nat) : Option β :=
  match l with
  | [] => none
  | (k₀, v) :: rest => if k = k₀ then some v else lookupKey rest k

def lookupStr {β : Type} (l : List (String × β)) (k : String) : Option β :=
  match l with
  | [] => none
  | (k₀, v) :: rest => if k = k₀ then some v else lookupStr rest k

/-- `map[k] = v` on a numeric-keyed JS object. -/
def mapSet (m : RecordMap) (k : Nat) (v : RecordNode) : RecordMap :=
  match m with
  | [] => [(k, v)]
  | (k₀, v₀) :: rest =>
    if k = k₀ then (k, v) :: rest
    else if k < k₀ then (k, v) :: (k₀, v₀) :: rest
    else (k₀, v₀) :: mapSet rest k v

/-- `Object.assign(acc, m)`: write every entry of `m` into `acc`, later same-key
writes overwriting earlier ones. -/
def mergeMap (acc m : RecordMap) : RecordMap :=
  m.foldl (fun a kv => mapSet a kv.1 kv.2) acc

/-- Update (in place) the value stored under `k`, if present. -/
def mapUpdate (m : RecordMap) (k : Nat) (f : RecordNode → RecordNode) : RecordMap :=
  match m with
  | [] => []
  | (k₀, v) :: rest =>
    if k = k₀ then (k₀, f v) :: rest else (k₀, v) :: mapUpdate rest k f

/-- Replace (first occurrence) or append the record map stored under type `t`.
Models `this._json.records[type] = m` (string keys keep insertion order, new
keys are appended). -/
def setMapOfType (rs : RecsList) (t : String) (m : RecordMap) : RecsList :=
  match rs with
  | [] => [(t, m)]
  | (t₀, m₀) :: rest =>
    if t = t₀ then (t, m) :: rest else (t₀, m₀) :: setMapOfType rest t m

/-! ## Type registry (external collaborator)

Modelled from the spec: the type registry (`RecordTypes.ts`, not under `src/`)
maps a record-type identifier to its allowed child types and default display
name (`defaultName` absent means the type is unnamed and naming operations are
no-ops).  Property defaults also live there but no claim exercises them. -/

structure Registry : Type where
  knownTypes : List String
  childTypes : List (String × List String)
  defaultNames : List (String × String)

/-- `isRecordType(type)` of the registry. -/
def Registry.isRecordType (reg : Registry) (t : String) : Bool :=
  reg.knownTypes.contains t

/-- `isTypeChildOf(parentType, childType)` of the registry. -/
def Registry.isTypeChildOf (reg : Registry) (p c : String) : Bool :=
  match lookupStr reg.childTypes p with
  | some cs => cs.contains c
  | none => false

/-- `recordTypeDefinitions[type].defaultName` of the registry. -/
def Registry.defaultName (reg : Registry) (t : String) : Option String :=
  lookupStr reg.defaultNames t

/-- A small concrete registry used for witnesses: a project contains scenes and
variables, a scene contains elements; projects and scenes are named, elements
and variables are unnamed. -/
def sampleRegistry : Registry where
  knownTypes := ["project", "scene", "element", "variable"]
  childTypes := [("project", ["scene", "variable"]), ("scene", ["element"]), ("element", [])]
  defaultNames := [("project", "Project"), ("scene", "Scene")]

/-! ## One-level queries (`RecordFactory`) -/

/-- `getRecordTypes()`: `Object.keys(this._json.records ?? {})`. -/
def getRecordTypes (n : RecordNode) : List String :=
  n.recordsD.map (·.1)

/-- `getRecordMapOfType(type)`: `this._json.records?.[type] ?? {}`. -/
def getRecordMapOfType (n : RecordNode) (t : String) : RecordMap :=
  (lookupStr n.recordsD t).getD []

/-- `getRecordMap()`: merge all types' record maps into a fresh object with
`Object.assign` (the result is a copy; writing into it does not write into the
tree — this is load-bearing for `changeDeepRecordId` below). -/
def getRecordMap (n : RecordNode) : RecordMap :=
  match n.records with
  | none => []
  | some _ => (getRecordTypes n).foldl (fun acc t => mergeMap acc (getRecordMapOfType n t)) []

/-- `getRecordOfType(type, id)`: `(this._json.records?.[type])?.[id]`. -/
def getRecordOfType (n : RecordNode) (t : String) (id : Nat) : Option RecordNode :=
  (lookupStr n.recordsD t).bind (fun m => lookupKey m id)

/-- `getRecord(id)`: `this.getRecordMap()[id]`. -/
def getRecord (n : RecordNode) (id : Nat) : Option RecordNode :=
  lookupKey (getRecordMap n) id

/-! ## Ordering -/

/-- First pass of `ensureOrderKeyPresentOfType`: scan the values, tracking the
running maximum order, and stop at the first node lacking `order` (the source
loop does `break` there, so orders after that node are not inspected).
Returns (undefinedFound, maxOrder). -/
def scanMaxOrder : List RecordNode → ℚ → Bool × ℚ
  | [], m => (false, m)
  | r :: rest, m =>
    match r.order with
    | none => (true, m)
    | some o => scanMaxOrder rest (if m < o then o else m)

/-- Second pass of `ensureOrderKeyPresentOfType`: assign `maxOrder + 1` to each
node lacking `order`, incrementing `maxOrder` for each, in iteration order. -/
def backfillOrders : RecordMap → ℚ → RecordMap
  | [], _ => []
  | (k, r) :: rest, m =>
    match r.order with
    | none => (k, r.setOrder (some (m + 1))) :: backfillOrders rest (m + 1)
    | some _ => (k, r) :: backfillOrders rest m

/-- `ensureOrderKeyPresentOfType(type)` (private): mutates the records of the
given type so every one carries an `order`. -/
def ensureOrderKeyPresentOfType (n : RecordNode) (t : String) : RecordNode :=
  let valuesArray := (getRecordMapOfType n t).map (·.2)
  let scanned := scanMaxOrder valuesArray 0
  if scanned.1 = false then n
  else n.setRecords (some (setMapOfType n.recordsD t (backfillOrders (getRecordMapOfType n t) scanned.2)))

/-- Stable insertion used to model `Array.prototype.sort` (which is stable)
with comparator `a.order - b.order`. -/
def insertByOrder (x : Nat × RecordNode) : List (Nat × RecordNode) → List (Nat × RecordNode)
  | [] => [x]
  | y :: rest =>
    if x.2.order.getD 0 ≤ y.2.order.getD 0 then x :: y :: rest
    else y :: insertByOrder x rest

/-- Stable ascending sort of record entries by `order` (the source casts
`order` to number after `ensureOrderKeyPresentOfType` has run; `getD 0` models
that cast and is never hit on an ensured map). -/
def sortEntriesByOrder (m : RecordMap) : RecordMap :=
  m.foldr insertByOrder []

/-- `getSortedRecordEntriesOfType(type)`: runs `ensureOrderKeyPresentOfType`
(a mutation — the first component is the updated tree), then sorts the
entries of that type by order. -/
def getSortedRecordEntriesOfType (n : RecordNode) (t : String) : RecordNode × RecordMap :=
  let n₁ := ensureOrderKeyPresentOfType n t
  (n₁, sortEntriesByOrder (getRecordMapOfType n₁ t))

/-- `getSortedRecordIdsOfType(type)`. -/
def getSortedRecordIdsOfType (n : RecordNode) (t : String) : RecordNode × List Nat :=
  let r := getSortedRecordEntriesOfType n t
  (r.1, r.2.map (·.1))

/-- `getSortedRecordsOfType(type)`. -/
def getSortedRecordsOfType (n : RecordNode) (t : String) : RecordNode × List RecordNode :=
  let r := getSortedRecordEntriesOfType n t
  (r.1, r.2.map (·.2))

/-- `getNewOrders(sortedRecords, newRecordsCount, position)` (private), the
order allocator.  The imperative loops are rendered as maps over
`List.range`: gap 0 produces `min-1, min-2, …`, the end gap produces
`max+1, max+2, …`, and an interior gap subdivides between the neighbours with
`segment = i+1`.  (`sortedRecords[0]?.order ?? 0` is `head? bind order getD 0`.) -/
def getNewOrders (sortedRecords : List RecordNode) (newRecordsCount : Nat)
    (position : Option Nat) : List ℚ :=
  let minOrder : ℚ := ((sortedRecords.head?).bind RecordNode.order).getD 0
  let maxOrder : ℚ := ((sortedRecords.getLast?).bind RecordNode.order).getD 0
  if sortedRecords.length = 0 then
    (List.range newRecordsCount).map (fun (i : ℕ) => ((i : ℚ) + 1))
  else if position = some 0 then
    (List.range newRecordsCount).map (fun (i : ℕ) => minOrder - ((i : ℚ) + 1))
  else if position = some sortedRecords.length ∨ position = none then
    (List.range newRecordsCount).map (fun (i : ℕ) => maxOrder + ((i : ℚ) + 1))
  else
    let p := position.getD 0
    let prevOrder : ℚ := ((sortedRecords.get? (p - 1)).bind RecordNode.order).getD 0
    let nextOrder : ℚ := ((sortedRecords.get? p).bind RecordNode.order).getD 0
    (List.range newRecordsCount).map
      (fun (i : ℕ) =>
        prevOrder + (nextOrder - prevOrder) / ((newRecordsCount : ℚ) + 1) * ((i : ℚ) + 1))

end RFModel

namespace RFModel

/-! ## Deep traversals

`changeDeepRecordId` iterates `Object.entries(this.getRecordMap())`: the
merged map holds, for every id, the *last* same-id entry in type order
(`Object.assign` overwrite), so for each raw child we recurse exactly when no
later entry carries the same id.  Crucially, the source writes its map-entry
relocation (`recordMap[newId] = recordMap[id]; delete recordMap[id]`) into the
merged map — a fresh object that is then discarded — so the tree's own record
maps keep their keys; only property values change.  The recursion into the
child *objects* does mutate the tree, which the structural recursion below
renders directly. -/

def mapKeys (m : RecordMap) : List Nat := m.map (·.1)

def recsKeys (rs : RecsList) : List Nat := rs.foldr (fun tm acc => mapKeys tm.2 ++ acc) []

/-- Rewrite every property value `=== id` to the new id
(`if (props[prop] === id) props[prop] = newId`). -/
def rewriteIdProps (props : List (String × Value)) (id nid : Nat) : List (String × Value) :=
  props.map (fun kv => if kv.2 = Value.num (id : ℚ) then (kv.1, Value.num (nid : ℚ)) else kv)

mutual

def changeDeepGoN (id nid : Nat) : RecordNode → RecordNode
  | .mk nm t o p r => .mk nm t o (rewriteIdProps p id nid) (changeDeepGoRecs id nid r)

def changeDeepGoRecs (id nid : Nat) : Option RecsList → Option RecsList
  | none => none
  | some rs => some (changeDeepGoTypes id nid rs)

def changeDeepGoTypes (id nid : Nat) : RecsList → RecsList
  | [] => []
  | (t, m) :: rest => (t, changeDeepGoMap id nid (recsKeys rest) m) :: changeDeepGoTypes id nid rest

/-- A child is recursed into exactly when it survives in the merged map,
i.e. when its id has no later occurrence (at this level). -/
def changeDeepGoMap (id nid : Nat) (later : List Nat) : RecordMap → RecordMap
  | [] => []
  | (k, c) :: rest =>
    (k, if k ∈ mapKeys rest ++ later then c else changeDeepGoN id nid c)
      :: changeDeepGoMap id nid later rest

end

/-- `changeDeepRecordId(id, newId?)`: generates the new id when absent
(`generateIdV2`, modelled by the counter `g`), rewrites property references and
recurses; returns (tree, returned newId, next counter). -/
def changeDeepRecordId (n : RecordNode) (id : Nat) (newId : Option Nat) (g : Nat) :
    RecordNode × Nat × Nat :=
  let nid := newId.getD g
  let g₁ := if newId.isNone then g + 1 else g
  (changeDeepGoN id nid n, nid, g₁)

/- Every id key appearing anywhere in the tree, with multiplicity (used to
state id-uniqueness; not itself a source function). -/
mutual

def deepIdsN : RecordNode → List Nat
  | .mk _ _ _ _ r => deepIdsRecs r

def deepIdsRecs : Option RecsList → List Nat
  | none => []
  | some rs => deepIdsTypes rs

def deepIdsTypes : RecsList → List Nat
  | [] => []
  | (_, m) :: rest => deepIdsMap m ++ deepIdsTypes rest

def deepIdsMap : RecordMap → List Nat
  | [] => []
  | (k, c) :: rest => k :: (deepIdsN c ++ deepIdsMap rest)

end

/- Replace, throughout the tree, the node stored under key `id` by `newRec`.
This is not a source function: it renders JavaScript aliasing — when the engine
mutates a node object it obtained by id, the tree sees the change at that
node's location.  With tree-unique ids (the engine's invariant) exactly one
entry is replaced, as in JS. -/
mutual

def updDeepByIdN (id : Nat) (newRec : RecordNode) : RecordNode → RecordNode
  | .mk nm t o p r => .mk nm t o p (updDeepByIdRecs id newRec r)

def updDeepByIdRecs (id : Nat) (newRec : RecordNode) : Option RecsList → Option RecsList
  | none => none
  | some rs => some (updDeepByIdTypes id newRec rs)

def updDeepByIdTypes (id : Nat) (newRec : RecordNode) : RecsList → RecsList
  | [] => []
  | (t, m) :: rest => (t, updDeepByIdMap id newRec m) :: updDeepByIdTypes id newRec rest

def updDeepByIdMap (id : Nat) (newRec : RecordNode) : RecordMap → RecordMap
  | [] => []
  | (k, c) :: rest =>
    (k, if k = id then newRec else updDeepByIdN id newRec c) :: updDeepByIdMap id newRec rest

end

/- Rewrite the props of *every* node of the tree (the intended net effect of
`changeDeepRecordId` on a well-formed tree; used to state claims). -/
mutual

def rewriteDeepPropsN (id nid : Nat) : RecordNode → RecordNode
  | .mk nm t o p r => .mk nm t o (rewriteIdProps p id nid) (rewriteDeepPropsRecs id nid r)

def rewriteDeepPropsRecs (id nid : Nat) : Option RecsList → Option RecsList
  | none => none
  | some rs => some (rewriteDeepPropsTypes id nid rs)

def rewriteDeepPropsTypes (id nid : Nat) : RecsList → RecsList
  | [] => []
  | (t, m) :: rest => (t, rewriteDeepPropsMap id nid m) :: rewriteDeepPropsTypes id nid rest

def rewriteDeepPropsMap (id nid : Nat) : RecordMap → RecordMap
  | [] => []
  | (k, c) :: rest => (k, rewriteDeepPropsN id nid c) :: rewriteDeepPropsMap id nid rest

end

/-! ## Fuelled depth-first functions

`getDeepRecordMap` and the id search iterate over the *computed* merged child
map, so their recursion is not structural in the tree; they take explicit fuel,
called with `nodeSize` of the node — strictly larger than any child's
`nodeSize`, so the fuel never runs out on the actual recursion. -/

mutual

def nodeSize : RecordNode → Nat
  | .mk _ _ _ _ r => 1 + recsSize r

def recsSize : Option RecsList → Nat
  | none => 0
  | some rs => 1 + typesSize rs

def typesSize : RecsList → Nat
  | [] => 0
  | (_, m) :: rest => 1 + mapSize m + typesSize rest

def mapSize : RecordMap → Nat
  | [] => 0
  | (_, c) :: rest => 1 + nodeSize c + mapSize rest

end

def getDeepRecordMapGo : Nat → RecordNode → RecordMap
  | 0, _ => []
  | fuel + 1, n =>
    let children := getRecordMap n
    children.foldl (fun acc kv => mergeMap acc (getDeepRecordMapGo fuel kv.2)) children

/-- `getDeepRecordMap()`: flatten the whole tree, merging every descendant's
direct children (last write wins on id collisions). -/
def getDeepRecordMap (n : RecordNode) : RecordMap :=
  getDeepRecordMapGo (nodeSize n) n

/-- `{id, r, p}`: a child id, the child, and its parent. -/
structure RAndP : Type where
  id : Nat
  r : RecordNode
  p : RecordNode

def getRAndPWithIdGo : Nat → RecordNode → Nat → Option RAndP
  | 0, _, _ => none
  | fuel + 1, n, id =>
    let recordMap := getRecordMap n
    recordMap.foldl
      (fun acc kv =>
        match acc with
        | some found => some found
        | none =>
          if id = kv.1 then some ⟨id, (lookupKey recordMap id).getD kv.2, n⟩
          else getRAndPWithIdGo fuel kv.2 id)
      none

/-- `getRecordAndParentWithId(id)` (private): depth-first search for an id. -/
def getRAndPWithId (n : RecordNode) (id : Nat) : Option RAndP :=
  getRAndPWithIdGo (nodeSize n) n id

/-- `cycleAllSubRecordIds()`: for every key of the deep record map, run
`changeDeepRecordId(key)` with a fresh generated id. -/
def cycleAllSubRecordIds (n : RecordNode) (g : Nat) : RecordNode × Nat :=
  let keys := (getDeepRecordMap n).map (·.1)
  keys.foldl
    (fun acc k =>
      let r := changeDeepRecordId acc.1 k none acc.2
      (r.1, r.2.2))
    (n, g)

end RFModel

namespace RFModel

/-! ## Addresses (`type:id|type:id...[!property[>index]]`) -/

/-- One digit to its character (only `d < 10` is ever reached). -/
def digitChar (d : Nat) : Char :=
  match d with
  | 0 => '0' | 1 => '1' | 2 => '2' | 3 => '3' | 4 => '4'
  | 5 => '5' | 6 => '6' | 7 => '7' | 8 => '8' | _ => '9'

def charVal (c : Char) : Nat := c.toNat - 48

def isDigitC (c : Char) : Bool := 48 ≤ c.toNat && c.toNat ≤ 57

/-- Decimal digits of `n`, most significant first (fuelled: `n/10 < n`). -/
def natToCharsGo : Nat → Nat → List Char
  | 0, _ => []
  | fuel + 1, n =>
    if n = 0 then [] else natToCharsGo fuel (n / 10) ++ [digitChar (n % 10)]

/-- JavaScript number-to-string for a natural number (template literals
`${id}` in `getAddress`). -/
def natToChars (n : Nat) : List Char :=
  if n = 0 then ['0'] else natToCharsGo n n

def natToStr (n : Nat) : String := String.mk (natToChars n)

/-- JavaScript `Number(string)` on the shapes address resolution meets: the
empty string is 0, a digit string is its decimal value, anything else is NaN
(`none` — full JS `Number` also accepts signs/decimals/whitespace, but a NaN
lookup misses just like `none` here). -/
def jsNumber (l : List Char) : Option Nat :=
  if l = [] then some 0
  else if l.all isDigitC then some (l.foldl (fun a c => 10 * a + charVal c) 0)
  else none

/-- JavaScript `String.prototype.split` with a one-character separator. -/
def splitOnChar (c : Char) : List Char → List (List Char)
  | [] => [[]]
  | x :: xs =>
    match splitOnChar c xs with
    | [] => [[x]]
    | r :: rs => if x = c then [] :: r :: rs else (x :: r) :: rs

/-- `addr.replace(/!.*/, "")`: drop everything from the first `!` on. -/
def stripBang (l : List Char) : List Char :=
  l.takeWhile (fun c => c != '!')

/-- An operation argument that is either a bare id or an address string. -/
inductive IdOrAddr : Type where
  | byId (id : Nat)
  | byAddr (addr : String)

/-- `getAddress({id, type?, selfAddr?, property?, index?})`. -/
def getAddress (n : RecordNode) (id : Nat) (tOpt : Option String) (selfAddr : Option String)
    (property : Option String) (index : Option Nat) : String :=
  let record := match tOpt with
    | some t => getRecordOfType n t id
    | none => getRecord n id
  match record with
  | none => ""
  | some r =>
    let t := tOpt.getD r.rtype
    let childPartialAddress := t ++ ":" ++ natToStr id
    let address := match selfAddr with
      | some s => s ++ "|" ++ childPartialAddress
      | none => childPartialAddress
    match property with
    | none => address
    | some prop =>
      let propertySuffix := match index with
        | some i => prop ++ ">" ++ natToStr i
        | none => prop
      address ++ "!" ++ propertySuffix

/-- The segment loop of `getRecordAndParentWithAddress`: each segment
`type:id` must name an existing child of the current node
(`Number(undefined)`/junk is NaN, whose lookup misses). -/
def resolveAddrLoop (parent child : RecordNode) (childId : Nat) :
    List (List Char) → Option RAndP
  | [] => some ⟨childId, child, parent⟩
  | seg :: rest =>
    let parts := splitOnChar ':' seg
    let ty := String.mk ((parts.get? 0).getD [])
    match (parts.get? 1).bind jsNumber with
    | none => none
    | some i =>
      match getRecordOfType child ty i with
      | none => none
      | some newChild => resolveAddrLoop child newChild i rest

/-- `getRecordAndParentWithAddress(addr)` (private). -/
def getRecordAndParentWithAddress (n : RecordNode) (addr : String) : Option RAndP :=
  let recordStringArray := splitOnChar '|' (stripBang addr.data)
  if recordStringArray.length == 0 || n.records.isNone then none
  else resolveAddrLoop n n 0 recordStringArray

/-- `getRecordAndParent(idOrAddress)`. -/
def getRecordAndParent (n : RecordNode) : IdOrAddr → Option RAndP
  | .byId i => getRAndPWithId n i
  | .byAddr s => getRecordAndParentWithAddress n s

/-- `getDeepRecord(idOrAddress)`. -/
def getDeepRecord (n : RecordNode) : IdOrAddr → Option RecordNode
  | .byId i => lookupKey (getDeepRecordMap n) i
  | .byAddr s => (getRecordAndParentWithAddress n s).map (·.r)

/-! ## Write-back helpers (JavaScript aliasing)

The engine hands `addRecord` a node object that also sits inside the tree
(`parentRecord` after resolution, or a source record in
`copyDeepRecordsToAddress`); mutating the object mutates the tree at that
location.  The helpers below render that: after computing the functional
result of the mutation, the updated node is written back at the place the
id/address resolves to. -/

/-- Replace the record stored under `(t, id)` one level down, if present. -/
def setRecordOfType (n : RecordNode) (t : String) (id : Nat) (r : RecordNode) : RecordNode :=
  n.setRecords (some (setMapOfType n.recordsD t
    (mapUpdate (getRecordMapOfType n t) id (fun _ => r))))

/-- Parse an address into `(type, id?)` segments (same split as resolution). -/
def parseAddrSegs (addr : String) : List (String × Option Nat) :=
  (splitOnChar '|' (stripBang addr.data)).map (fun seg =>
    let parts := splitOnChar ':' seg
    (String.mk ((parts.get? 0).getD []), (parts.get? 1).bind jsNumber))

/-- Walk parsed segments and replace the addressed node. -/
def updateAtSegs (n : RecordNode) (segs : List (String × Option Nat))
    (newRec : RecordNode) : RecordNode :=
  match segs with
  | [] => n
  | (t, idOpt) :: rest =>
    match idOpt with
    | none => n
    | some i =>
      match rest with
      | [] => setRecordOfType n t i newRec
      | _ =>
        match getRecordOfType n t i with
        | none => n
        | some c => setRecordOfType n t i (updateAtSegs c rest newRec)

/-- Write `newNode` back at the location `loc` resolves to. -/
def writeBackAt (n : RecordNode) (loc : IdOrAddr) (newNode : RecordNode) : RecordNode :=
  match loc with
  | .byId i => updDeepByIdN i newNode n
  | .byAddr s => updateAtSegs n (parseAddrSegs s) newNode

/-! ## CRUD -/

/-- `initializeRecordMap(type)` (private; renamed here): `none` is the `false`
return — nothing mutated — and `some` the `true` return with the record map
for `type` present.  Note the parent/child legality check only runs when the
map has to be created. -/
def initRecordMap (reg : Registry) (n : RecordNode) (t : String) : Option RecordNode :=
  if !(reg.isRecordType t) then none
  else
    match lookupStr n.recordsD t with
    | some _ => some n
    | none =>
      if !(reg.isTypeChildOf n.rtype t) then none
      else some (n.setRecords (some (setMapOfType n.recordsD t [])))

/-- Modelled from the spec: the name-uniqueness utility
`getSafeAndUniqueRecordName` of the external string library — given a desired
name and the taken names, deterministically return a name not in that set
(numeric suffix incrementing until unused). -/
def getSafeAndUniqueRecordName (newName : String) (existingNames : List String) : String :=
  match (List.range (existingNames.length + 1)).find?
      (fun k => !(existingNames.contains (newName ++ natToStr (k + 1)))) with
  | some k => newName ++ natToStr (k + 1)
  | none => newName

/-- `changeRecordName(type, id, newName?)`: no-op (`none`) for a missing record
or an unnamed type; otherwise falls back to the registry's default name and
deduplicates against the names of the other same-type siblings. -/
def changeRecordName (reg : Registry) (n : RecordNode) (t : String) (id : Nat)
    (newName : Option String) : RecordNode × Option RecordNode :=
  match getRecordOfType n t id with
  | none => (n, none)
  | some _ =>
    match reg.defaultName t with
    | none => (n, none)
    | some dflt =>
      let name := newName.getD dflt
      let existingNames := ((getRecordMapOfType n t).filter (fun kv => kv.1 != id)).filterMap
        (fun kv => kv.2.name)
      let finalName := if existingNames.contains name then
          getSafeAndUniqueRecordName name existingNames
        else name
      let n₁ := n.setRecords (some (setMapOfType n.recordsD t
        (mapUpdate (getRecordMapOfType n t) id (fun r => r.setName (some finalName)))))
      (n₁, getRecordOfType n₁ t id)

/-- The argument object of `addRecord`. -/
structure AddArgs : Type where
  record : RecordNode
  position : Option Nat := none
  id : Option Nat := none
  dontCycleSubRecordIds : Bool := false
  parentIdOrAddress : Option IdOrAddr := none

/-- `addRecord` without a `parentIdOrAddress` (the main body): validate the
type, backfill sibling orders (`getSortedRecordsOfType` mutates), allocate the
new order (overwriting any order the incoming record carried), cycle the
incoming subtree's ids unless asked not to, pick the id (caller-supplied or
generated), store, then deduplicate the name. -/
def addRecordDirect (reg : Registry) (n : RecordNode) (a : AddArgs) (g : Nat) :
    (RecordNode × Option (Nat × RecordNode)) × Nat :=
  let t := a.record.rtype
  match initRecordMap reg n t with
  | none => ((n, none), g)
  | some n₁ =>
    let sorted := getSortedRecordsOfType n₁ t
    let n₂ := sorted.1
    let record₁ := a.record.setOrder ((getNewOrders sorted.2 1 a.position).get? 0)
    let cycled := if a.dontCycleSubRecordIds then (record₁, g)
      else cycleAllSubRecordIds record₁ g
    let record₂ := cycled.1
    let idAndG : Nat × Nat := match a.id with
      | some i => (i, cycled.2)
      | none => (cycled.2, cycled.2 + 1)
    let theId := idAndG.1
    let n₃ := n₂.setRecords (some (setMapOfType n₂.recordsD t
      (mapSet (getRecordMapOfType n₂ t) theId record₂)))
    let n₄ := (changeRecordName reg n₃ t theId record₂.name).1
    ((n₄, (getRecordOfType n₄ t theId).map (fun r => (theId, r))), idAndG.2)

/-- `addRecord({record, position, id, dontCycleSubRecordIds, parentIdOrAddress})`:
with a parent given, resolve it, add under it, and (the source mutates the
resolved parent object in place) write the updated parent back. -/
def addRecord (reg : Registry) (n : RecordNode) (a : AddArgs) (g : Nat) :
    (RecordNode × Option (Nat × RecordNode)) × Nat :=
  match a.parentIdOrAddress with
  | none => addRecordDirect reg n a g
  | some pa =>
    match getDeepRecord n pa with
    | none => ((n, none), g)
    | some parentRecord =>
      let res := addRecordDirect reg parentRecord { a with parentIdOrAddress := none } g
      ((writeBackAt n pa res.1.1, res.1.2), res.2)

/-- `duplicateRecord(type, id)`: deep-clone (identity on immutable functional
values), find the original's sorted position, insert right after it via
`addRecord` (`indexOf` is -1 when missing, giving position 0). -/
def duplicateRecord (reg : Registry) (n : RecordNode) (t : String) (id : Nat) (g : Nat) :
    (RecordNode × Option (Nat × RecordNode)) × Nat :=
  match getRecordOfType n t id with
  | none => ((n, none), g)
  | some orig =>
    let clonedJson := orig
    let idsR := getSortedRecordIdsOfType n orig.rtype
    let n₁ := idsR.1
    let origPositionIndex : Nat := match idsR.2.findIdx? (fun x => x == id) with
      | some i => i + 1
      | none => 0
    addRecord reg n₁ { record := clonedJson, position := some origPositionIndex } g

/-- `reorderRecords(type, ids, position)`: computes `ids.length` new orders for
the gap, then assigns `sortedRecords[i].order = allOrders[i]` for *every*
index `i` below the sibling count (`allOrders[i]` is `undefined` — `none` —
from `ids.length` on); with distinct sibling keys this is: each entry takes
the order at its sorted position. -/
def reorderRecords (n : RecordNode) (t : String) (ids : List Nat) (position : Nat) :
    RecordNode :=
  let sorted := getSortedRecordEntriesOfType n t
  let n₁ := sorted.1
  let sortedIds := sorted.2.map (·.1)
  let allOrders := getNewOrders (sorted.2.map (·.2)) ids.length (some position)
  n₁.setRecords (some (setMapOfType n₁.recordsD t
    ((getRecordMapOfType n₁ t).map (fun kv =>
      (kv.1, kv.2.setOrder (allOrders.get? (sortedIds.findIdx (fun x => x == kv.1))))))))

/-- `copyDeepRecordsToAddress(source, dest, destPosition?)`: resolve all
sources and the destination, then (in reverse order) insert each source
*record object itself* via `addRecord` — there is no deep clone here, so the
mutations `addRecord` performs on the record (order, possibly name, cycled
property references) also hit the tree at the source location, rendered by the
write-back; an unresolved source is skipped. -/
def copyDeepRecordsToAddress (reg : Registry) (n : RecordNode) (source : List IdOrAddr)
    (dest : IdOrAddr) (destPosition : Option Nat) (g : Nat) : (RecordNode × Bool) × Nat :=
  let sourceRAndPArray := source.map (fun s => getRecordAndParent n s)
  match getRecordAndParent n dest with
  | none => ((n, false), g)
  | some _ =>
    let step := fun (acc : RecordNode × Nat) (rp : Option RAndP) =>
      match rp with
      | none => acc
      | some rp =>
        let res := addRecord reg acc.1
          { record := rp.r, position := destPosition, parentIdOrAddress := some dest } acc.2
        match res.1.2 with
        | none => (res.1.1, res.2)
        | some ir => (updDeepByIdN rp.id ir.2 res.1.1, res.2)
    let final := sourceRAndPArray.reverse.foldl step (n, g)
    ((final.1, true), final.2)

end RFModel

namespace RFModel

/-! ## Small lemmas about the map helpers -/

theorem lookupStr_setMapOfType (rs : RecsList) (t : String) (m : RecordMap) :
    lookupStr (setMapOfType rs t m) t = some m := by
  induction rs with
  | nil => simp [setMapOfType, lookupStr]
  | cons hd tl ih =>
    by_cases h : t = hd.1
    · simp [setMapOfType, h, lookupStr]
    · simp [setMapOfType, h, lookupStr, ih]

theorem lookupKey_mapSet (m : RecordMap) (k : Nat) (v : RecordNode) :
    lookupKey (mapSet m k v) k = some v := by
  induction m with
  | nil => simp [mapSet, lookupKey]
  | cons hd tl ih =>
    by_cases h : k = hd.1
    · simp [mapSet, h, lookupKey]
    · by_cases h2 : k < hd.1
      · simp [mapSet, h, h2, lookupKey]
      · simp [mapSet, h, h2, lookupKey, ih]

theorem lookupKey_mapUpdate (m : RecordMap) (k : Nat) (f : RecordNode → RecordNode) :
    lookupKey (mapUpdate m k f) k = (lookupKey m k).map f := by
  induction m with
  | nil => simp [mapUpdate, lookupKey]
  | cons hd tl ih =>
    by_cases h : k = hd.1
    · simp [mapUpdate, h, lookupKey]
    · simp [mapUpdate, h, lookupKey, ih]

theorem setOrder_order (n : RecordNode) (o : Option ℚ) : (n.setOrder o).order = o := by
  cases n; rfl

theorem setName_order (n : RecordNode) (nm : Option String) :
    (n.setName nm).order = n.order := by
  cases n; rfl

theorem setName_rtype (n : RecordNode) (nm : Option String) :
    (n.setName nm).rtype = n.rtype := by
  cases n; rfl

theorem changeDeepGoN_order (id nid : Nat) (n : RecordNode) :
    (changeDeepGoN id nid n).order = n.order := by
  cases n; rfl

theorem changeDeepGoN_rtype (id nid : Nat) (n : RecordNode) :
    (changeDeepGoN id nid n).rtype = n.rtype := by
  cases n; rfl

theorem changeDeepRecordId_order (n : RecordNode) (id : Nat) (newId : Option Nat) (g : Nat) :
    (changeDeepRecordId n id newId g).1.order = n.order := by
  simp [changeDeepRecordId, changeDeepGoN_order]

theorem changeDeepRecordId_rtype (n : RecordNode) (id : Nat) (newId : Option Nat) (g : Nat) :
    (changeDeepRecordId n id newId g).1.rtype = n.rtype := by
  simp [changeDeepRecordId, changeDeepGoN_rtype]

theorem cycleAll_foldl_order (l : List Nat) (acc : RecordNode × Nat) :
    (l.foldl (fun acc k =>
      let r := changeDeepRecordId acc.1 k none acc.2
      (r.1, r.2.2)) acc).1.order = acc.1.order := by
  induction l generalizing acc with
  | nil => rfl
  | cons hd tl ih => simp only [List.foldl]; rw [ih]; exact changeDeepRecordId_order ..

theorem cycleAll_foldl_rtype (l : List Nat) (acc : RecordNode × Nat) :
    (l.foldl (fun acc k =>
      let r := changeDeepRecordId acc.1 k none acc.2
      (r.1, r.2.2)) acc).1.rtype = acc.1.rtype := by
  induction l generalizing acc with
  | nil => rfl
  | cons hd tl ih => simp only [List.foldl]; rw [ih]; exact changeDeepRecordId_rtype ..

theorem cycleAllSubRecordIds_order (n : RecordNode) (g : Nat) :
    (cycleAllSubRecordIds n g).1.order = n.order := by
  simp only [cycleAllSubRecordIds]; exact cycleAll_foldl_order ..

theorem cycleAllSubRecordIds_rtype (n : RecordNode) (g : Nat) :
    (cycleAllSubRecordIds n g).1.rtype = n.rtype := by
  simp only [cycleAllSubRecordIds]; exact cycleAll_foldl_rtype ..

theorem getRecordOfType_setRecords (n : RecordNode) (t : String) (m : RecordMap) (id : Nat) :
    getRecordOfType (n.setRecords (some (setMapOfType n.recordsD t m))) t id
      = lookupKey m id := by
  cases n with
  | mk nm t0 o p r =>
    simp [getRecordOfType, RecordNode.setRecords, RecordNode.recordsD, RecordNode.records,
      lookupStr_setMapOfType]

theorem getRecordOfType_eq_lookup (n : RecordNode) (t : String) (id : Nat) :
    getRecordOfType n t id = lookupKey (getRecordMapOfType n t) id := by
  simp only [getRecordOfType, getRecordMapOfType]
  cases lookupStr n.recordsD t <;> simp [lookupKey]

/-- The name-deduplication step preserves the addressed record's order. -/
theorem changeRecordName_order (reg : Registry) (n : RecordNode) (t : String) (id : Nat)
    (nm : Option String) :
    ((getRecordOfType (changeRecordName reg n t id nm).1 t id).map RecordNode.order)
      = (getRecordOfType n t id).map RecordNode.order := by
  unfold changeRecordName
  cases h0 : getRecordOfType n t id with
  | none => simp [h0]
  | some r =>
    cases h1 : reg.defaultName t with
    | none => simp [h0]
    | some dflt =>
      simp only [h0]
      rw [getRecordOfType_setRecords, lookupKey_mapUpdate, ← getRecordOfType_eq_lookup, h0]
      simp [setName_order]

end RFModel

namespace RFModel

/-! ## Concrete trees used as failing inputs / counterexamples -/

/-- An element node with order 1 (lives under `exS1` with id 2). -/
def exE1 : RecordNode := .mk none "element" (some 1) [] none

/-- A scene holding element id 2. -/
def exS1 : RecordNode := .mk (some "S1") "scene" (some 1) [] (some [("element", [(2, exE1)])])

/-- A project holding scene id 1 (which holds element id 2). -/
def exP1 : RecordNode := .mk none "project" none [] (some [("scene", [(1, exS1)])])

/-- A childless scene. -/
def exS2 : RecordNode := .mk none "scene" (some 1) [] none

/-- A project holding scene id 1 only. -/
def exP2 : RecordNode := .mk none "project" none [] (some [("scene", [(1, exS2)])])

/-- Scene id 1, order 1 (claim C3's scenario). -/
def exA3 : RecordNode := .mk none "scene" (some 1) [] none

/-- Scene id 2, order 2 (claim C3's scenario). -/
def exB3 : RecordNode := .mk none "scene" (some 2) [] none

/-- The C3 scenario tree: `project → scene(id 1, order 1), scene(id 2, order 2)`. -/
def exP3 : RecordNode := .mk none "project" none [] (some [("scene", [(1, exA3), (2, exB3)])])

/-- An element with order 10 (lives under `exS4b` with id 5). -/
def exE4 : RecordNode := .mk none "element" (some 10) [] none

/-- Scene id 1, the copy destination. -/
def exS4a : RecordNode := .mk (some "A") "scene" (some 1) [] none

/-- Scene id 2, holding element id 5. -/
def exS4b : RecordNode := .mk (some "B") "scene" (some 2) [] (some [("element", [(5, exE4)])])

/-- The C4 tree: element 5 (order 10) under scene 2; scene 1 is empty. -/
def exP4 : RecordNode := .mk none "project" none [] (some [("scene", [(1, exS4a), (2, exS4b)])])

/-- A scene with no order key (claim C5's failing sibling). -/
def exA5 : RecordNode := .mk none "scene" none [] none

/-- A scene with order 5. -/
def exB5 : RecordNode := .mk none "scene" (some 5) [] none

/-- The C5 tree: sibling 1 lacks `order`, sibling 2 carries order 5 — and 5 is
only seen *after* the order-less sibling in iteration order. -/
def exP5 : RecordNode := .mk none "project" none [] (some [("scene", [(1, exA5), (2, exB5)])])

/-- A variable record to insert. -/
def exV9 : RecordNode := .mk none "variable" none [] none

/-- A scene that (illegally) already carries a `variable` record map. -/
def exP9 : RecordNode := .mk none "scene" none [] (some [("variable", [])])

/-- A scene with no `variable` record map (for the amended C9). -/
def exP9b : RecordNode := .mk none "scene" none [] (some [("element", [])])

/-! ## Claims C1–C5 (code bugs): evaluations at the failing inputs -/

/-- Claim C1: after any `addRecord`/`duplicateRecord`/`cycleAllSubRecordIds`, no two
nodes across the whole tree share an id.  The code violates this:
`changeDeepRecordId` writes its map-entry relocation into the throwaway object
built by `getRecordMap()`, so `cycleAllSubRecordIds` — which `addRecord` relies
on to avoid clashes — never changes any stored id.  Evaluating
`duplicateRecord` on scene 1 (which holds element id 2) succeeds yet leaves a
tree in which id 2 occurs twice (once under each scene). -/
theorem C1_duplicateRecord_leaves_duplicate_ids :
    ((duplicateRecord sampleRegistry exP1 "scene" 1 100).1.2).isSome = true ∧
      ¬ (deepIdsN (duplicateRecord sampleRegistry exP1 "scene" 1 100).1.1).Nodup := by
  exact ⟨by decide, by decide⟩

/-- Claim C2: `changeDeepRecordId(id, newId)` relocates a direct child's record-map
entry, making it retrievable under `newId` and not under `id`.  The code does
not: the relocation is performed on the merged copy `getRecordMap()` returns
and is lost.  On a project with a single scene child of id 1,
`changeDeepRecordId(1, 5)` leaves nothing under 5 and the child still under 1. -/
theorem C2_changeDeepRecordId_does_not_relocate :
    (getRecord (changeDeepRecordId exP2 1 (some 5) 100).1 5).isNone = true ∧
      (getRecord (changeDeepRecordId exP2 1 (some 5) 100).1 1).isSome = true := by
  exact ⟨by decide, by decide⟩

/-- Claim C3: in the scenario `project → scene(1, order 1), scene(2, order 2)`,
`reorderRecords(scene, [2], 0)` should give scene 2 an order strictly below
scene 1's (sorted ids `[2,1]`), leaving unlisted records' orders unchanged.
The code instead assigns the `ids.length` new orders positionally to the
*first* records of the sorted sibling list (ignoring `ids`): scene 1 — not
listed — gets the new order, and scene 2's order is overwritten with
`undefined`.  So scene 2 ends with no order at all, refuting the claim. -/
theorem C3_reorderRecords_ignores_ids :
    ((getRecordOfType (reorderRecords exP3 "scene" [2] 0) "scene" 2).bind
        RecordNode.order) = none ∧
      ((getRecordOfType (reorderRecords exP3 "scene" [2] 0) "scene" 1).bind
        RecordNode.order) = some ((1 : ℚ) - (((0 : ℕ) : ℚ) + 1)) := by
  exact ⟨by decide, rfl⟩

/-- Claim C4: `copyDeepRecordsToAddress` inserts a deep-cloned copy under a fresh id
and leaves the original untouched.  The code never clones: it hands the
original node object to `addRecord`, which overwrites its `order` in place —
and the object is still referenced from the source record map.  Copying
element 5 (order 10) into `scene:1` leaves the entry at id 5 with order
`0 + 1`, not 10 (while the inserted entry does sit under the fresh id 100). -/
theorem C4_copyDeep_mutates_source_order :
    (((getRecordOfType exP4 "scene" 2).bind (fun s => getRecordOfType s "element" 5)).bind
        RecordNode.order) = some 10 ∧
      (((getRecordOfType
            (copyDeepRecordsToAddress sampleRegistry exP4 [.byId 5] (.byAddr "scene:1")
              none 100).1.1 "scene" 2).bind
          (fun s => getRecordOfType s "element" 5)).bind RecordNode.order)
        = some (((0 : ℕ) : ℚ) + 1) ∧
      (((0 : ℕ) : ℚ) + 1) ≠ 10 ∧
      (((getRecordOfType
            (copyDeepRecordsToAddress sampleRegistry exP4 [.byId 5] (.byAddr "scene:1")
              none 100).1.1 "scene" 1).bind
          (fun s => getRecordOfType s "element" 100)).bind RecordNode.order).isSome = true := by
  refine ⟨by decide, rfl, by norm_num, by decide⟩

/-- Claim C5: `getSortedRecordEntriesOfType` backfills each order-less sibling with
`max+1` where `max` is the maximum order among ALL siblings, so backfilled
orders exceed every pre-existing one.  The code's scan `break`s at the first
order-less sibling, so orders appearing later are never seen: with sibling 1
order-less and sibling 2 at order 5, sibling 1 is backfilled with `0 + 1 = 1`,
which is *not* greater than the pre-existing 5 (the claim demands `5 + 1 = 6`). -/
theorem C5_backfill_below_existing_max :
    ((getRecordOfType (ensureOrderKeyPresentOfType exP5 "scene") "scene" 1).bind
        RecordNode.order) = some ((0 : ℚ) + 1) ∧
      ¬ ((5 : ℚ) < (0 : ℚ) + 1) ∧
      ((getRecordOfType (ensureOrderKeyPresentOfType exP5 "scene") "scene" 2).bind
        RecordNode.order) = some 5 := by
  refine ⟨rfl, by norm_num, by decide⟩

/-! ## Claim C9: disallowed child types -/

/-- Claim C9 (counterexample): the claim says adding a record of a type not declared
legal under the parent is always a no-op returning `undefined`.  But
`initializeRecordMap` checks `isTypeChildOf` only when it has to *create* the
record map: a parent that already carries a (possibly empty) record map of the
disallowed type accepts the insertion.  `variable` is not a legal child of
`scene`, yet `addRecord` of a variable under `exP9` succeeds. -/
theorem C9_disallowed_type_added_when_map_exists :
    sampleRegistry.isTypeChildOf "scene" "variable" = false ∧
      ((addRecord sampleRegistry exP9 { record := exV9 } 100).1.2).isSome = true := by
  exact ⟨by decide, by decide⟩

/-- Claim C9 (amended): for a child type not declared legal under the parent's type,
`addRecord` is a no-op returning `undefined` — *provided the parent does not
already carry a record map of that type* (the legality check only runs when the
map must be created). -/
theorem C9_disallowed_type_rejected_when_map_absent (reg : Registry) (n : RecordNode)
    (a : AddArgs) (g : Nat)
    (hpar : a.parentIdOrAddress = none)
    (hchild : reg.isTypeChildOf n.rtype a.record.rtype = false)
    (hnomap : lookupStr n.recordsD a.record.rtype = none) :
    addRecord reg n a g = ((n, none), g) := by
  unfold addRecord addRecordDirect initRecordMap
  rw [hpar]
  cases h : reg.isRecordType a.record.rtype <;> simp [h, hnomap, hchild]

/-- Witness for the amended C9 at a concrete input: a scene with no `variable`
record map rejects a variable record, unchanged. -/
theorem C9_disallowed_type_rejected_when_map_absent_witness :
    (AddArgs.parentIdOrAddress { record := exV9 } = none) ∧
      (sampleRegistry.isTypeChildOf exP9b.rtype (AddArgs.record { record := exV9 }).rtype
        = false) ∧
      (lookupStr exP9b.recordsD (AddArgs.record { record := exV9 }).rtype = none) ∧
      addRecord sampleRegistry exP9b { record := exV9 } 100 = ((exP9b, none), 100) :=
  ⟨rfl, by decide,  rfl,
    C9_disallowed_type_rejected_when_map_absent sampleRegistry exP9b { record := exV9 } 100
      rfl (by decide) rfl⟩

end RFModel

namespace RFModel

/-- On a successful direct `addRecord`, the stored record's order is exactly the
allocator's output for the requested position. -/
theorem addRecord_allocated_order (reg : Registry) (n : RecordNode) (a : AddArgs) (g : Nat)
    (hpar : a.parentIdOrAddress = none)
    (n₁ : RecordNode) (h₁ : initRecordMap reg n a.record.rtype = some n₁) :
    ((addRecord reg n a g).1.2).map (fun ir => RecordNode.order ir.2)
      = some ((getNewOrders (getSortedRecordsOfType n₁ a.record.rtype).2 1 a.position).get? 0) := by
  unfold addRecord addRecordDirect
  rw [hpar]
  simp only [h₁, Option.map_map]
  set t := a.record.rtype with ht
  set sorted := getSortedRecordsOfType n₁ t with hs
  set ord := (getNewOrders sorted.2 1 a.position).get? 0 with hord
  set record₁ := a.record.setOrder ord with hr₁
  set cycled := if a.dontCycleSubRecordIds = true then (record₁, g)
    else cycleAllSubRecordIds record₁ g with hcy
  set theId := (match a.id with
    | some i => (i, cycled.2)
    | none => (cycled.2, cycled.2 + 1)).1 with hid
  set n₃ := sorted.1.setRecords (some (setMapOfType sorted.1.recordsD t
    (mapSet (getRecordMapOfType sorted.1 t) theId cycled.1))) with hn₃
  have hkey : (getRecordOfType (changeRecordName reg n₃ t theId cycled.1.name).1 t theId).map
      RecordNode.order = some (cycled.1.order) := by
    rw [changeRecordName_order, hn₃, getRecordOfType_setRecords, lookupKey_mapSet]
    rfl
  have hcyord : cycled.1.order = ord := by
    rw [hcy]
    by_cases hd : a.dontCycleSubRecordIds = true
    · simp [hd, hr₁, setOrder_order]
    · simp [hd, cycleAllSubRecordIds_order, hr₁, setOrder_order]
  cases hX : getRecordOfType (changeRecordName reg n₃ t theId cycled.1.name).1 t theId with
  | none => rw [hX] at hkey; simp at hkey
  | some r =>
    rw [hX] at hkey
    simp only [Option.map_some', Option.some.injEq] at hkey
    simp only [Option.map_some', Function.comp_apply, Option.some.injEq]
    rw [hkey, hcyord]


/-- A scene record arriving at `addRecord` already carrying order 50. -/
def exC10rec : RecordNode := .mk none "scene" (some 50) [] none

/-- The record actually stored by the C10 witness insertion. -/
def exC10recF : RecordNode :=
  (((addRecord sampleRegistry exP3 { record := exC10rec, position := some 0 } 100).1.2).map
    Prod.snd).getD exC10rec

/-- Claim C10: for every record passed to a succeeding `addRecord`, the inserted
record's `order` equals the value computed by the order allocator for the
requested position — any order the incoming record already carried is
overwritten (the statement places no condition on `a.record.order`). -/
theorem C10_addRecord_overwrites_order (reg : Registry) (n : RecordNode) (a : AddArgs)
    (g : Nat) (hpar : a.parentIdOrAddress = none)
    (n₁ : RecordNode) (h₁ : initRecordMap reg n a.record.rtype = some n₁)
    (newId : Nat) (recF : RecordNode)
    (h : ((addRecord reg n a g).1.2) = some (newId, recF)) :
    recF.order
      = (getNewOrders (getSortedRecordsOfType n₁ a.record.rtype).2 1 a.position).get? 0 := by
  have hh := addRecord_allocated_order reg n a g hpar n₁ h₁
  rw [h] at hh
  simpa using hh

/-- Witness for C10: inserting a scene that already carries order 50 at gap 0 of
the two-scene project stores it with the allocator's order, not 50. -/
theorem C10_addRecord_overwrites_order_witness :
    (AddArgs.parentIdOrAddress { record := exC10rec, position := some 0 } = none) ∧
      initRecordMap sampleRegistry exP3
          (AddArgs.record { record := exC10rec, position := some 0 }).rtype = some exP3 ∧
      ((addRecord sampleRegistry exP3 { record := exC10rec, position := some 0 } 100).1.2)
        = some (100, exC10recF) ∧
      exC10recF.order
        = (getNewOrders (getSortedRecordsOfType exP3
            (AddArgs.record { record := exC10rec, position := some 0 }).rtype).2 1
            (AddArgs.position { record := exC10rec, position := some 0 })).get? 0 :=
  ⟨rfl, rfl, rfl,
    C10_addRecord_overwrites_order sampleRegistry exP3
      { record := exC10rec, position := some 0 } 100 rfl exP3 rfl 100 exC10recF rfl⟩

end RFModel

namespace RFModel

/-- In a sorted list, every member is at most the last element. -/
theorem sorted_le_getLast {l : List ℚ} (h : List.Sorted (· ≤ ·) l) {a b : ℚ}
    (ha : a ∈ l) (hb : l.getLast? = some b) : a ≤ b := by
  induction l with
  | nil => cases ha
  | cons x xs ih =>
    rcases List.mem_cons.mp ha with rfl | hmem
    · cases hxs : xs with
      | nil =>
        subst hxs
        simp only [List.getLast?_singleton, Option.some.injEq] at hb
        exact le_of_eq hb
      | cons y ys =>
        subst hxs
        rw [List.getLast?_cons_cons] at hb
        have hbmem : b ∈ y :: ys := List.mem_of_mem_getLast? (hb ▸ rfl)
        exact (List.sorted_cons.mp h).1 b hbmem
    · cases hxs : xs with
      | nil => subst hxs; cases hmem
      | cons y ys =>
        subst hxs
        rw [List.getLast?_cons_cons] at hb
        exact ih (List.sorted_cons.mp h).2 hmem hb

end RFModel

namespace RFModel

/-- Claim C6: the order allocator, on the sorted sibling list with `k` new entries
and a gap position, returns exactly `k` values; an empty sibling set yields
`1, 2, 3, …`; gap 0 decrements below the current minimum (the first sorted
record — shown minimal) once per entry; gap = sibling count or an unspecified
gap increments above the current maximum (the last sorted record — shown
maximal) once per entry; an interior gap gives the `i`-th entry (1-based, here
`i+1` 0-based) `prev + (next - prev) * i/(k+1)` for the orders `prev`, `next`
of the nodes before and after the gap. -/
theorem C6_getNewOrders_cases (recs : List RecordNode) (k : Nat) (pos : Option Nat)
    (hsorted : List.Sorted (· ≤ ·) (recs.map (fun r => r.order.getD 0))) :
    ((getNewOrders recs k pos).length = k)
    ∧ (recs = [] →
        getNewOrders recs k pos = (List.range k).map (fun (i : ℕ) => ((i : ℚ) + 1)))
    ∧ (∀ r₀ rs, recs = r₀ :: rs → pos = some 0 →
        (∀ r ∈ recs, r₀.order.getD 0 ≤ r.order.getD 0) ∧
        getNewOrders recs k pos
          = (List.range k).map (fun (i : ℕ) => r₀.order.getD 0 - ((i : ℚ) + 1)))
    ∧ (recs ≠ [] → (pos = some recs.length ∨ pos = none) →
        ∀ rl, recs.getLast? = some rl →
        (∀ r ∈ recs, r.order.getD 0 ≤ rl.order.getD 0) ∧
        getNewOrders recs k pos
          = (List.range k).map (fun (i : ℕ) => rl.order.getD 0 + ((i : ℚ) + 1)))
    ∧ (∀ p, pos = some p → 0 < p → p < recs.length →
        ∀ rp rn, recs.get? (p - 1) = some rp → recs.get? p = some rn →
        getNewOrders recs k pos
          = (List.range k).map (fun (i : ℕ) =>
              rp.order.getD 0
                + (rn.order.getD 0 - rp.order.getD 0) * (((i : ℚ) + 1) / ((k : ℚ) + 1)))) := by
  refine ⟨?_, ?_, ?_, ?_, ?_⟩
  · unfold getNewOrders
    split_ifs <;> rw [List.length_map, List.length_range]
  · intro h
    subst h
    simp [getNewOrders]
  · intro r₀ rs hrec hpos
    subst hrec hpos
    constructor
    · intro r hr
      rcases List.mem_cons.mp hr with rfl | hmem
      · exact le_refl _
      · exact (List.sorted_cons.mp hsorted).1 _ (List.mem_map_of_mem _ hmem)
    · unfold getNewOrders
      simp
  · intro hne hpos rl hrl
    constructor
    · intro r hr
      exact sorted_le_getLast hsorted (List.mem_map_of_mem _ hr)
        (by rw [List.getLast?_map, hrl]; rfl)
    · unfold getNewOrders
      have hlen0 : 0 < recs.length := List.length_pos.mpr hne
      have hlen : ¬ (recs.length = 0) := by omega
      have hpos0 : ¬ (pos = some 0) := by
        rcases hpos with h | h
        · rw [h]; simp only [Option.some.injEq]; omega
        · rw [h]; simp
      rw [if_neg hlen, if_neg hpos0, if_pos hpos]
      have : (recs.getLast?).bind RecordNode.order = rl.order := by rw [hrl]; rfl
      rw [this]
  · intro p hpos hp0 hplen rp rn hrp hrn
    subst hpos
    unfold getNewOrders
    have hlen : ¬ (recs.length = 0) := by omega
    have hpos0 : ¬ ((some p : Option Nat) = some 0) := by simp; omega
    have hposl : ¬ ((some p : Option Nat) = some recs.length ∨ (some p : Option Nat) = none) := by
      simp; omega
    rw [if_neg hlen, if_neg hpos0, if_neg hposl]
    have h1 : (recs.get? (p - 1)).bind RecordNode.order = rp.order := by rw [hrp]; rfl
    have h2 : ((recs.get? p).bind RecordNode.order) = rn.order := by
      rw [hrn]; rfl
    simp only [Option.getD_some, h1, h2]
    refine List.map_congr_left ?_
    intro i hi
    ring


/-- Witness for C6: the two-scene sibling list (orders 1 and 2), two new entries
into interior gap 1. -/
theorem C6_getNewOrders_cases_witness :
    (List.Sorted (· ≤ ·) ([exA3, exB3].map (fun r => r.order.getD 0)))
    ∧ (((getNewOrders [exA3, exB3] 2 (some 1)).length = 2)
      ∧ (([exA3, exB3] : List RecordNode) = [] →
          getNewOrders [exA3, exB3] 2 (some 1)
            = (List.range 2).map (fun (i : ℕ) => ((i : ℚ) + 1)))
      ∧ (∀ r₀ rs, ([exA3, exB3] : List RecordNode) = r₀ :: rs →
          (some 1 : Option Nat) = some 0 →
          (∀ r ∈ [exA3, exB3], r₀.order.getD 0 ≤ r.order.getD 0) ∧
          getNewOrders [exA3, exB3] 2 (some 1)
            = (List.range 2).map (fun (i : ℕ) => r₀.order.getD 0 - ((i : ℚ) + 1)))
      ∧ (([exA3, exB3] : List RecordNode) ≠ [] →
          ((some 1 : Option Nat) = some ([exA3, exB3] : List RecordNode).length
            ∨ (some 1 : Option Nat) = none) →
          ∀ rl, ([exA3, exB3] : List RecordNode).getLast? = some rl →
          (∀ r ∈ [exA3, exB3], r.order.getD 0 ≤ rl.order.getD 0) ∧
          getNewOrders [exA3, exB3] 2 (some 1)
            = (List.range 2).map (fun (i : ℕ) => rl.order.getD 0 + ((i : ℚ) + 1)))
      ∧ (∀ p, (some 1 : Option Nat) = some p → 0 < p →
          p < ([exA3, exB3] : List RecordNode).length →
          ∀ rp rn, ([exA3, exB3] : List RecordNode).get? (p - 1) = some rp →
            ([exA3, exB3] : List RecordNode).get? p = some rn →
          getNewOrders [exA3, exB3] 2 (some 1)
            = (List.range 2).map (fun (i : ℕ) =>
                rp.order.getD 0
                  + (rn.order.getD 0 - rp.order.getD 0)
                    * (((i : ℚ) + 1) / (((2 : ℕ) : ℚ) + 1))))) :=
  ⟨by decide, C6_getNewOrders_cases [exA3, exB3] 2 (some 1) (by decide)⟩

end RFModel

namespace RFModel

/-- Tree well-formedness: at every node the sibling ids — across all the
type-keyed record maps of that node — are pairwise distinct (the engine's
id-uniqueness invariant restricted to one level, which is what
`changeDeepRecordId` needs: no child is shadowed in the merged map). -/
inductive WF : RecordNode → Prop where
  | intro (n : RecordNode) :
      (recsKeys n.recordsD).Nodup →
      (∀ t m, (t, m) ∈ n.recordsD → ∀ k c, (k, c) ∈ m → WF c) →
      WF n

/-- The node reached by a path of (type-index, entry-index) hops. -/
def nodeAtPath (n : RecordNode) : List (Nat × Nat) → Option RecordNode
  | [] => some n
  | (i, j) :: rest =>
    match n.recordsD.get? i with
    | none => none
    | some tm =>
      match tm.2.get? j with
      | none => none
      | some kc => nodeAtPath kc.2 rest

mutual

theorem changeDeepGoN_eq_rewrite (id nid : Nat) (n : RecordNode) (h : WF n) :
    changeDeepGoN id nid n = rewriteDeepPropsN id nid n := by
  cases n with
  | mk nm t o p r =>
    cases h with
    | intro _ hnd hwf =>
      cases r with
      | none => rfl
      | some rs =>
        have hnd1 : (recsKeys rs).Nodup := by
          simpa [RecordNode.recordsD, RecordNode.records] using hnd
        have hwf1 : ∀ t m, (t, m) ∈ rs → ∀ k c, (k, c) ∈ m → WF c := by
          intro t1 m1 hm1
          exact hwf t1 m1 (by simpa [RecordNode.recordsD, RecordNode.records] using hm1)
        simp only [changeDeepGoN, rewriteDeepPropsN, changeDeepGoRecs, rewriteDeepPropsRecs]
        rw [changeDeepGoTypes_eq_rewrite id nid rs hnd1 hwf1]
termination_by nodeSize n
decreasing_by
  all_goals subst_vars
  all_goals simp [nodeSize, recsSize, typesSize, mapSize]
  all_goals omega

theorem changeDeepGoTypes_eq_rewrite (id nid : Nat) (rs : RecsList)
    (hnd : (recsKeys rs).Nodup)
    (hwf : ∀ t m, (t, m) ∈ rs → ∀ k c, (k, c) ∈ m → WF c) :
    changeDeepGoTypes id nid rs = rewriteDeepPropsTypes id nid rs := by
  cases rs with
  | nil => rfl
  | cons tm rest =>
    have hsplit : recsKeys (tm :: rest) = mapKeys tm.2 ++ recsKeys rest := rfl
    rw [hsplit] at hnd
    have h1 : changeDeepGoMap id nid (recsKeys rest) tm.2 = rewriteDeepPropsMap id nid tm.2 :=
      changeDeepGoMap_eq_rewrite id nid (recsKeys rest) tm.2 hnd
        (fun k c hk => hwf tm.1 tm.2 (List.mem_cons_self _ _) k c hk)
    have h2 : changeDeepGoTypes id nid rest = rewriteDeepPropsTypes id nid rest :=
      changeDeepGoTypes_eq_rewrite id nid rest hnd.of_append_right
        (fun t1 m1 hm1 => hwf t1 m1 (List.mem_cons_of_mem _ hm1))
    show (tm.1, changeDeepGoMap id nid (recsKeys rest) tm.2) :: changeDeepGoTypes id nid rest
      = (tm.1, rewriteDeepPropsMap id nid tm.2) :: rewriteDeepPropsTypes id nid rest
    rw [h1, h2]
termination_by typesSize rs
decreasing_by
  all_goals subst_vars
  all_goals simp [nodeSize, recsSize, typesSize, mapSize]
  all_goals omega

theorem changeDeepGoMap_eq_rewrite (id nid : Nat) (later : List Nat) (m : RecordMap)
    (hnd : (mapKeys m ++ later).Nodup)
    (hwf : ∀ k c, (k, c) ∈ m → WF c) :
    changeDeepGoMap id nid later m = rewriteDeepPropsMap id nid m := by
  cases m with
  | nil => rfl
  | cons kc rest =>
    have hcons : (kc.1 :: (mapKeys rest ++ later)).Nodup := by
      simpa [mapKeys] using hnd
    have hmem : kc.1 ∉ mapKeys rest ++ later := (List.nodup_cons.mp hcons).1
    have h1 : changeDeepGoN id nid kc.2 = rewriteDeepPropsN id nid kc.2 :=
      changeDeepGoN_eq_rewrite id nid kc.2 (hwf kc.1 kc.2 (List.mem_cons_self _ _))
    have h2 : changeDeepGoMap id nid later rest = rewriteDeepPropsMap id nid rest :=
      changeDeepGoMap_eq_rewrite id nid later rest (List.nodup_cons.mp hcons).2
        (fun k1 c1 hk1 => hwf k1 c1 (List.mem_cons_of_mem _ hk1))
    show (kc.1, if kc.1 ∈ mapKeys rest ++ later then kc.2 else changeDeepGoN id nid kc.2)
        :: changeDeepGoMap id nid later rest
      = (kc.1, rewriteDeepPropsN id nid kc.2) :: rewriteDeepPropsMap id nid rest
    rw [if_neg hmem, h1, h2]
termination_by mapSize m
decreasing_by
  all_goals subst_vars
  all_goals simp [nodeSize, recsSize, typesSize, mapSize]
  all_goals omega

end

end RFModel

namespace RFModel

theorem rewriteDeepPropsTypes_eq_map (id nid : Nat) (rs : RecsList) :
    rewriteDeepPropsTypes id nid rs
      = rs.map (fun tm => (tm.1, rewriteDeepPropsMap id nid tm.2)) := by
  induction rs with
  | nil => rfl
  | cons tm rest ih =>
    show (tm.1, rewriteDeepPropsMap id nid tm.2) :: rewriteDeepPropsTypes id nid rest = _
    rw [ih]
    rfl

theorem rewriteDeepPropsMap_eq_map (id nid : Nat) (m : RecordMap) :
    rewriteDeepPropsMap id nid m
      = m.map (fun kc => (kc.1, rewriteDeepPropsN id nid kc.2)) := by
  induction m with
  | nil => rfl
  | cons kc rest ih =>
    show (kc.1, rewriteDeepPropsN id nid kc.2) :: rewriteDeepPropsMap id nid rest = _
    rw [ih]
    rfl

theorem rewriteDeepPropsN_recordsD (id nid : Nat) (n : RecordNode) :
    (rewriteDeepPropsN id nid n).recordsD = rewriteDeepPropsTypes id nid n.recordsD := by
  cases n with
  | mk nm t o p r => cases r <;> rfl

theorem rewriteDeepPropsN_props (id nid : Nat) (n : RecordNode) :
    (rewriteDeepPropsN id nid n).props = rewriteIdProps n.props id nid := by
  cases n
  rfl

theorem nodeAtPath_rewriteDeep (id nid : Nat) (n : RecordNode) (path : List (Nat × Nat)) :
    nodeAtPath (rewriteDeepPropsN id nid n) path
      = (nodeAtPath n path).map (rewriteDeepPropsN id nid) := by
  induction path generalizing n with
  | nil => rfl
  | cons hop rest ih =>
    obtain ⟨i, j⟩ := hop
    simp only [nodeAtPath]
    rw [rewriteDeepPropsN_recordsD, rewriteDeepPropsTypes_eq_map, List.get?_map]
    cases htm : n.recordsD.get? i with
    | none => rfl
    | some tm =>
      simp only [Option.map_some']
      rw [rewriteDeepPropsMap_eq_map, List.get?_map]
      cases hkc : tm.2.get? j with
      | none => rfl
      | some kc =>
        simp only [Option.map_some']
        exact ih kc.2

/-- Claim C7: on a tree whose sibling ids are distinct at every level (the
engine's id-uniqueness invariant — without it the merged-map iteration can
shadow a child), `changeDeepRecordId(id, newId)` rewrites, at *every* node of
the subtree (every path), exactly those property values equal to `id` into
`newId`: the props of the node at any path afterwards are the
`rewriteIdProps` image of the props of the node at that path before. -/
theorem C7_changeDeepRecordId_rewrites_references (n : RecordNode) (id newId g : Nat)
    (h : WF n) (path : List (Nat × Nat)) :
    (nodeAtPath (changeDeepRecordId n id (some newId) g).1 path).map RecordNode.props
      = (nodeAtPath n path).map (fun m => rewriteIdProps m.props id newId) := by
  have h1 : (changeDeepRecordId n id (some newId) g).1 = rewriteDeepPropsN id newId n := by
    simp only [changeDeepRecordId, Option.getD_some]
    exact changeDeepGoN_eq_rewrite id newId n h
  rw [h1, nodeAtPath_rewriteDeep, Option.map_map]
  cases hnp : nodeAtPath n path with
  | none => rfl
  | some m =>
    simp only [Option.map_some', Function.comp_apply, rewriteDeepPropsN_props]

/-- A single scene whose property `linked_scene` stores the id 7. -/
def exC7 : RecordNode := .mk none "scene" none [("linked_scene", Value.num 7)] none

/-- Witness for C7: renaming id 7 to 9 on `exC7` rewrites its stored reference. -/
theorem C7_changeDeepRecordId_rewrites_references_witness :
    WF exC7 ∧
      (nodeAtPath (changeDeepRecordId exC7 7 (some 9) 0).1 []).map RecordNode.props
        = (nodeAtPath exC7 []).map (fun m => rewriteIdProps m.props 7 9) := by
  have h : WF exC7 :=
    WF.intro _ (by decide) (fun t m hm => absurd hm (List.not_mem_nil _))
  exact ⟨h, C7_changeDeepRecordId_rewrites_references exC7 7 9 0 h []⟩


end RFModel

namespace RFModel

/-- Each decimal digit maps to its character, which is a digit character and
not an address metacharacter. -/
theorem digitChar_spec (d : Nat) (h : d < 10) :
    isDigitC (digitChar d) = true ∧ charVal (digitChar d) = d ∧
      digitChar d ≠ ':' ∧ digitChar d ≠ '|' ∧ digitChar d ≠ '!' := by
  interval_cases d <;> exact ⟨rfl, rfl, by decide, by decide, by decide⟩

theorem natToCharsGo_digits (fuel : Nat) : ∀ n c, c ∈ natToCharsGo fuel n →
    ∃ d, d < 10 ∧ c = digitChar d := by
  induction fuel with
  | zero => intro n c hc; cases hc
  | succ f ih =>
    intro n c hc
    unfold natToCharsGo at hc
    by_cases h : n = 0
    · rw [if_pos h] at hc; cases hc
    · rw [if_neg h] at hc
      rcases List.mem_append.mp hc with h1 | h1
      · exact ih _ c h1
      · rw [List.mem_singleton] at h1
        exact ⟨n % 10, Nat.mod_lt _ (by norm_num), h1⟩

theorem natToChars_digits (n : Nat) : ∀ c ∈ natToChars n, ∃ d, d < 10 ∧ c = digitChar d := by
  intro c hc
  unfold natToChars at hc
  by_cases h : n = 0
  · rw [if_pos h, List.mem_singleton] at hc
    exact ⟨0, by norm_num, hc⟩
  · rw [if_neg h] at hc
    exact natToCharsGo_digits n n c hc

theorem parseFold_go (fuel : Nat) : ∀ n a, n ≤ fuel →
    (natToCharsGo fuel n).foldl (fun acc c => 10 * acc + charVal c) a
      = a * 10 ^ (natToCharsGo fuel n).length + n := by
  induction fuel with
  | zero =>
    intro n a h
    interval_cases n
    simp [natToCharsGo]
  | succ f ih =>
    intro n a h
    by_cases h0 : n = 0
    · simp [natToCharsGo, h0]
    · rw [natToCharsGo, if_neg h0, List.foldl_append, List.length_append]
      have hd : n / 10 ≤ f := by
        have := Nat.div_lt_self (Nat.pos_of_ne_zero h0) (by norm_num : 1 < 10)
        omega
      rw [ih (n / 10) a hd]
      have hcv : charVal (digitChar (n % 10)) = n % 10 :=
        (digitChar_spec _ (Nat.mod_lt _ (by norm_num))).2.1
      simp only [List.foldl_cons, List.foldl_nil, List.length_cons, List.length_nil, hcv]
      have hdm : 10 * (n / 10) + n % 10 = n := Nat.div_add_mod n 10
      calc 10 * (a * 10 ^ (natToCharsGo f (n / 10)).length + n / 10) + n % 10
          = a * (10 ^ (natToCharsGo f (n / 10)).length * 10)
              + (10 * (n / 10) + n % 10) := by ring
        _ = a * 10 ^ ((natToCharsGo f (n / 10)).length + 1) + n := by
              rw [hdm, pow_succ]
        _ = a * 10 ^ ((natToCharsGo f (n / 10)).length + (0 + 1)) + n := by
              rw [Nat.zero_add]

theorem natToCharsGo_ne_nil (n : Nat) (h : n ≠ 0) : natToCharsGo n n ≠ [] := by
  cases n with
  | zero => exact absurd rfl h
  | succ m =>
    unfold natToCharsGo
    rw [if_neg h]
    simp

theorem jsNumber_natToChars (n : Nat) : jsNumber (natToChars n) = some n := by
  by_cases h0 : n = 0
  · subst h0; decide
  · unfold natToChars
    rw [if_neg h0]
    unfold jsNumber
    rw [if_neg (natToCharsGo_ne_nil n h0)]
    have hall : (natToCharsGo n n).all isDigitC = true := by
      rw [List.all_eq_true]
      intro c hc
      obtain ⟨d, hd, rfl⟩ := natToCharsGo_digits n n c hc
      exact (digitChar_spec d hd).1
    rw [if_pos hall, parseFold_go n n 0 (le_refl n)]
    simp

theorem natToChars_not_special (n : Nat) :
    ':' ∉ natToChars n ∧ '|' ∉ natToChars n ∧ '!' ∉ natToChars n := by
  refine ⟨fun hm => ?_, fun hm => ?_, fun hm => ?_⟩ <;>
    · obtain ⟨d, hd, he⟩ := natToChars_digits n _ hm
      have := digitChar_spec d hd
      first
        | exact this.2.2.1 he.symm
        | exact this.2.2.2.1 he.symm
        | exact this.2.2.2.2 he.symm

theorem splitOnChar_ne_nil (c : Char) (l : List Char) : splitOnChar c l ≠ [] := by
  cases l with
  | nil => simp [splitOnChar]
  | cons x xs =>
    unfold splitOnChar
    cases hs : splitOnChar c xs with
    | nil => simp
    | cons r rs => dsimp only; split <;> simp

theorem splitOnChar_of_not_mem (c : Char) (l : List Char) (h : c ∉ l) :
    splitOnChar c l = [l] := by
  induction l with
  | nil => rfl
  | cons x xs ih =>
    have hx : ¬ (x = c) := fun e => h (e ▸ List.mem_cons_self x xs)
    have hxs : c ∉ xs := fun m => h (List.mem_cons_of_mem _ m)
    unfold splitOnChar
    rw [ih hxs]
    dsimp only
    rw [if_neg hx]

theorem splitOnChar_append (c : Char) (a b : List Char) (ha : c ∉ a) :
    splitOnChar c (a ++ c :: b) = a :: splitOnChar c b := by
  induction a with
  | nil =>
    simp only [List.nil_append]
    conv_lhs => unfold splitOnChar
    cases hb : splitOnChar c b with
    | nil => exact absurd hb (splitOnChar_ne_nil c b)
    | cons r rs =>
      dsimp only
      rw [if_pos rfl]
  | cons x xs ih =>
    have hx : ¬ (x = c) := fun e => ha (e ▸ List.mem_cons_self x xs)
    have hxs : c ∉ xs := fun m => ha (List.mem_cons_of_mem _ m)
    show splitOnChar c (x :: (xs ++ c :: b)) = (x :: xs) :: splitOnChar c b
    conv_lhs => unfold splitOnChar
    rw [ih hxs]
    dsimp only
    rw [if_neg hx]

theorem stripBang_of_not_mem (l : List Char) (h : '!' ∉ l) : stripBang l = l := by
  induction l with
  | nil => rfl
  | cons x xs ih =>
    have hx : (x != '!') = true := by
      simp only [bne_iff_ne, ne_eq]
      exact fun e => h (e ▸ List.mem_cons_self x xs)
    have hxs : '!' ∉ xs := fun m => h (List.mem_cons_of_mem _ m)
    simp only [stripBang] at ih ⊢
    rw [List.takeWhile_cons, hx, ih hxs]
    simp

end RFModel

namespace RFModel

theorem setRecords_records (n : RecordNode) (r : Option RecsList) :
    (n.setRecords r).records = r := by
  cases n
  rfl

theorem changeRecordName_records_isSome (reg : Registry) (n : RecordNode) (t : String)
    (id : Nat) (nm : Option String) (h : n.records.isSome = true) :
    ((changeRecordName reg n t id nm).1).records.isSome = true := by
  unfold changeRecordName
  cases hx : getRecordOfType n t id with
  | none => simpa using h
  | some r =>
    cases hd : reg.defaultName t with
    | none => simpa using h
    | some dflt => simp [setRecords_records]

/-- On a successful direct `addRecord`, the returned record is exactly what a
`getRecordOfType` lookup of the returned id finds, and the tree has a
`records` object. -/
theorem addRecord_success_spec (reg : Registry) (n : RecordNode) (a : AddArgs) (g : Nat)
    (hpar : a.parentIdOrAddress = none)
    (n' : RecordNode) (newId : Nat) (recF : RecordNode) (g' : Nat)
    (h : addRecord reg n a g = ((n', some (newId, recF)), g')) :
    getRecordOfType n' a.record.rtype newId = some recF ∧ n'.records.isSome = true := by
  unfold addRecord addRecordDirect at h
  rw [hpar] at h
  cases hi : initRecordMap reg n a.record.rtype with
  | none => simp only [hi] at h; simp at h
  | some n₁ =>
    simp only [hi] at h
    set t := a.record.rtype with ht
    set sorted := getSortedRecordsOfType n₁ t with hs
    set ord := (getNewOrders sorted.2 1 a.position).get? 0 with hord
    set record₁ := a.record.setOrder ord with hr₁
    set cycled := if a.dontCycleSubRecordIds = true then (record₁, g)
      else cycleAllSubRecordIds record₁ g with hcy
    set theId := (match a.id with
      | some i => (i, cycled.2)
      | none => (cycled.2, cycled.2 + 1)).1 with hid
    set n₃ := sorted.1.setRecords (some (setMapOfType sorted.1.recordsD t
      (mapSet (getRecordMapOfType sorted.1 t) theId cycled.1))) with hn₃
    set n₄ := (changeRecordName reg n₃ t theId cycled.1.name).1 with hn₄
    rw [Prod.mk.injEq] at h
    obtain ⟨h1, h3⟩ := h
    rw [Prod.mk.injEq] at h1
    obtain ⟨h1, h2⟩ := h1
    rw [Option.map_eq_some'] at h2
    obtain ⟨r, hr, hpair⟩ := h2
    rw [Prod.mk.injEq] at hpair
    obtain ⟨hids, hrec⟩ := hpair
    subst h1
    subst hids
    subst hrec
    refine ⟨hr, ?_⟩
    rw [hn₄]
    refine changeRecordName_records_isSome reg n₃ t theId cycled.1.name ?_
    rw [hn₃, setRecords_records]
    rfl

end RFModel

namespace RFModel

/-- Claim C8: feeding the address `getAddress` produces for a freshly inserted
child (its type and new id) back into `getDeepRecord` on the same tree returns
that same stored node.  The type string is assumed free of the address
metacharacters `:` `|` `!` (every registry type name is). -/
theorem C8_address_roundtrip (reg : Registry) (n : RecordNode) (a : AddArgs) (g : Nat)
    (hpar : a.parentIdOrAddress = none)
    (hc1 : ':' ∉ a.record.rtype.data) (hc2 : '|' ∉ a.record.rtype.data)
    (hc3 : '!' ∉ a.record.rtype.data)
    (n' : RecordNode) (newId : Nat) (recF : RecordNode) (g' : Nat)
    (h : addRecord reg n a g = ((n', some (newId, recF)), g')) :
    getDeepRecord n' (.byAddr (getAddress n' newId (some a.record.rtype) none none none))
      = some recF := by
  obtain ⟨ha, hb⟩ := addRecord_success_spec reg n a g hpar n' newId recF g' h
  set t := a.record.rtype with ht
  have haddr : getAddress n' newId (some t) none none none = t ++ ":" ++ natToStr newId := by
    unfold getAddress
    dsimp only
    rw [ha]
    rfl
  have hdata : (t ++ ":" ++ natToStr newId).data = t.data ++ ':' :: natToChars newId := by
    show (t.data ++ [':']) ++ natToChars newId = t.data ++ ':' :: natToChars newId
    rw [List.append_assoc]
    rfl
  have hbang : stripBang (t.data ++ ':' :: natToChars newId)
      = t.data ++ ':' :: natToChars newId := by
    apply stripBang_of_not_mem
    intro hm
    rcases List.mem_append.mp hm with hm | hm
    · exact hc3 hm
    · rcases List.mem_cons.mp hm with hm | hm
      · exact absurd hm (by decide)
      · exact (natToChars_not_special newId).2.2 hm
  have hsplit1 : splitOnChar '|' (t.data ++ ':' :: natToChars newId)
      = [t.data ++ ':' :: natToChars newId] := by
    apply splitOnChar_of_not_mem
    intro hm
    rcases List.mem_append.mp hm with hm | hm
    · exact hc2 hm
    · rcases List.mem_cons.mp hm with hm | hm
      · exact absurd hm (by decide)
      · exact (natToChars_not_special newId).2.1 hm
  have hsplit2 : splitOnChar ':' (t.data ++ ':' :: natToChars newId)
      = [t.data, natToChars newId] := by
    rw [splitOnChar_append ':' _ _ hc1,
        splitOnChar_of_not_mem ':' _ (natToChars_not_special newId).1]
  have hnone : n'.records.isNone = false := by
    cases hrec : n'.records with
    | none => rw [hrec] at hb; simp at hb
    | some rs => rfl
  have hcond : (([t.data ++ ':' :: natToChars newId] : List (List Char)).length == 0
      || n'.records.isNone) = false := by
    rw [hnone]
    rfl
  rw [haddr]
  show (getRecordAndParentWithAddress n' (t ++ ":" ++ natToStr newId)).map RAndP.r = some recF
  unfold getRecordAndParentWithAddress
  dsimp only
  rw [hdata, hbang, hsplit1, hcond]
  simp only [Bool.false_eq_true, if_false]
  unfold resolveAddrLoop
  dsimp only
  rw [hsplit2]
  dsimp only [List.get?, Option.getD_some, Option.some_bind]
  rw [show String.mk t.data = t from rfl]
  rw [jsNumber_natToChars]
  dsimp only
  rw [ha]
  rfl

end RFModel

namespace RFModel

/-- A fresh project parent with no children. -/
def exC8parent : RecordNode := .mk (some "P") "project" none [] none

/-- The scene record to insert for the C8 witness. -/
def exC8rec : RecordNode := .mk none "scene" none [] none

/-- The tree after the C8 witness insertion. -/
def exC8tree : RecordNode := (addRecord sampleRegistry exC8parent { record := exC8rec } 500).1.1

/-- The record actually stored by the C8 witness insertion. -/
def exC8recF : RecordNode :=
  (((addRecord sampleRegistry exC8parent { record := exC8rec } 500).1.2).map Prod.snd).getD
    exC8rec

/-- Witness for C8: a scene freshly inserted under a bare project is found again
through its generated address. -/
theorem C8_address_roundtrip_witness :
    (AddArgs.parentIdOrAddress { record := exC8rec } = none) ∧
      (':' ∉ (AddArgs.record { record := exC8rec }).rtype.data) ∧
      ('|' ∉ (AddArgs.record { record := exC8rec }).rtype.data) ∧
      ('!' ∉ (AddArgs.record { record := exC8rec }).rtype.data) ∧
      (addRecord sampleRegistry exC8parent { record := exC8rec } 500
        = ((exC8tree, some (500, exC8recF)), 501)) ∧
      getDeepRecord exC8tree
          (.byAddr (getAddress exC8tree 500
            (some (AddArgs.record { record := exC8rec }).rtype) none none none))
        = some exC8recF :=
  ⟨rfl, by decide, by decide, by decide, rfl,
    C8_address_roundtrip sampleRegistry exC8parent { record := exC8rec } 500 rfl
      (by decide) (by decide) (by decide) exC8tree 500 exC8recF 501 rfl⟩

end RFModel
